import Mathlib

/-!
Verification of the movies-oop repository: a shallow embedding of the two
storage backends (`storage_json.py`, `storage_csv.py`) and of the collection
manager (`movie_app.py`), with theorems settling the specification claims.

Modelling conventions:
* Python values that can appear as movie-record attributes are the type
  `PyVal` (int, float, str, None); Python floats are modelled as rationals.
* A Python dict is an insertion-ordered association list with unique keys;
  `dictInsert` / `dictDelete` follow dict assignment and deletion semantics.
* A persisted file is modelled at the boundary of the serialisation library
  the code calls: for the JSON backend the file is either absent, undecodable
  (which covers the empty file), or a decoded title-keyed document; for the
  CSV backend the file is either absent, rejected by the csv module, or a
  list of rows of cell strings as `csv.reader`/`csv.writer` see them.
* Fallible Python code (statements that may raise) returns `Except PyErr`.
-/

/-- A Python exception class, as far as the modelled code distinguishes them. -/
inductive PyErr where
  | typeError
  | keyError
  | valueError
deriving DecidableEq

/-- A Python scalar value as it can appear in a movie record: `int`, `float`
(modelled as a rational), `str`, or `None`. -/
inductive PyVal where
  | vint (n : ℤ)
  | vfloat (q : ℚ)
  | vstr (s : String)
  | vnone
deriving DecidableEq

/-- One movie record: the `{"year": ..., "rating": ..., "poster": ...}` dict. -/
structure Movie where
  year : PyVal
  rating : PyVal
  poster : PyVal
deriving DecidableEq

/-- A Python dict mapping title to record: an insertion-ordered association
list.  The unique-key dict invariant is carried as a hypothesis (`nodupKeys`)
where a proof needs it. -/
abbrev Movies := List (String × Movie)

/-- `title in movies`. -/
def dictContains (m : Movies) (k : String) : Bool :=
  m.any (fun p => p.1 == k)

/-- `movies[title]`, as an `Option` (Python would raise `KeyError`). -/
def dictGet (m : Movies) (k : String) : Option Movie :=
  (m.find? (fun p => p.1 == k)).map Prod.snd

/-- `movies[title] = rec`: replace in place if the key exists (keeping its
position, as Python dicts do), otherwise append. -/
def dictInsert (m : Movies) (k : String) (v : Movie) : Movies :=
  if dictContains m k then m.map (fun p => if p.1 == k then (k, v) else p)
  else m ++ [(k, v)]

/-- `if title in movies: del movies[title]` (for a unique-key dict, filtering
out the key is exactly deletion). -/
def dictDelete (m : Movies) (k : String) : Movies :=
  m.filter (fun p => p.1 != k)

/-- `movies[title]["rating"] = rating` applied under `if title in movies`:
the in-place rating mutation of `update_movie`. -/
def updRating (m : Movies) (t : String) (r : ℚ) : Movies :=
  m.map (fun p => if p.1 == t then (p.1, ⟨p.2.year, .vfloat r, p.2.poster⟩) else p)

/-- The dict invariant: titles are unique. -/
def nodupKeys (m : Movies) : Prop :=
  (m.map Prod.fst).Nodup

instance (m : Movies) : Decidable (nodupKeys m) := by
  unfold nodupKeys; infer_instance

/-! ## Python numeric/string conversions

The code calls `int(s)`, `float(s)` and (through the csv writer) `str(v)`.
These are modelled character-faithfully on `List Char`.  `str` of a float is
modelled by a decimal string that `float()` parses back to the same value
(value-faithful; CPython prints the shortest such string, and no claim
observes the exact digits of a written float). -/

/-- Whitespace stripped by `int()` / `float()` / `str.strip()`. -/
def isSpaceChar (c : Char) : Bool :=
  c == ' ' || c == '\t' || c == '\n' || c == '\r'

/-- Strip whitespace from both ends. -/
def stripChars (cs : List Char) : List Char :=
  ((cs.dropWhile isSpaceChar).reverse.dropWhile isSpaceChar).reverse

/-- `str.strip()`. -/
def pyStrip (s : String) : String :=
  String.mk (stripChars s.toList)

/-- The numeric value of a decimal digit character. -/
def charDigit? (c : Char) : Option ℕ :=
  if c.isDigit then some (c.toNat - 48) else none

/-- Accumulate a decimal value over digit characters; `none` on any
non-digit. -/
def digitsVal : List Char → ℕ → Option ℕ
  | [], acc => some acc
  | c :: cs, acc =>
    match charDigit? c with
    | some d => digitsVal cs (10 * acc + d)
    | none => none

/-- Parse a nonempty all-digit string. -/
def parseDigits : List Char → Option ℕ
  | [] => none
  | c :: cs => digitsVal (c :: cs) 0

/-- Little-endian digit characters of `n`, with fuel (`fuel ≥ n` suffices). -/
def natCharsAux : ℕ → ℕ → List Char
  | 0, _ => []
  | _ + 1, 0 => []
  | fuel + 1, n + 1 => Nat.digitChar ((n + 1) % 10) :: natCharsAux fuel ((n + 1) / 10)

/-- The decimal digits of a natural number, most significant first: `str(n)`
for `n : ℕ`. -/
def natChars (n : ℕ) : List Char :=
  if n = 0 then ['0'] else (natCharsAux n n).reverse

/-- `str(n)` for a natural number. -/
def natRepr (n : ℕ) : String :=
  String.mk (natChars n)

/-- `str(n)` for a Python int, as characters. -/
def intChars (n : ℤ) : List Char :=
  if n < 0 then '-' :: natChars n.natAbs else natChars n.natAbs

/-- `str(n)` for a Python int. -/
def pyIntRepr (n : ℤ) : String :=
  String.mk (intChars n)

/-- Sign-and-digits integer parsing (no surrounding whitespace). -/
def pyIntCore : List Char → Option ℤ
  | [] => none
  | c :: cs =>
    if c == '-' then (parseDigits cs).map (fun n => -(n : ℤ))
    else if c == '+' then (parseDigits cs).map (fun n => (n : ℤ))
    else (parseDigits (c :: cs)).map (fun n => (n : ℤ))

/-- Python `int(s)` on a string, `none` for `ValueError`.  (Underscore digit
grouping, accepted by CPython, is not modelled; no modelled input uses it.) -/
def pyIntOfString (s : String) : Option ℤ :=
  pyIntCore (stripChars s.toList)

/-- Split at the first exponent marker `e`/`E`. -/
def splitAtExp : List Char → List Char × Option (List Char)
  | [] => ([], none)
  | c :: cs =>
    if c == 'e' || c == 'E' then ([], some cs)
    else
      let r := splitAtExp cs
      (c :: r.1, r.2)

/-- Split at the first decimal point. -/
def splitAtDot : List Char → List Char × Option (List Char)
  | [] => ([], none)
  | c :: cs =>
    if c == '.' then ([], some cs)
    else
      let r := splitAtDot cs
      (c :: r.1, r.2)

/-- Fractional digit block: value of `.<digits>`. -/
def parseFrac (cs : List Char) : Option ℚ :=
  (parseDigits cs).map (fun n => (n : ℚ) / 10 ^ cs.length)

/-- The mantissa of a float literal: `digits`, `digits.`, `.digits` or
`digits.digits`. -/
def parseMantissa (cs : List Char) : Option ℚ :=
  match splitAtDot cs with
  | (as, none) => (parseDigits as).map (fun n => (n : ℚ))
  | (as, some bs) =>
    match as, bs with
    | [], bs => parseFrac bs
    | as, [] => (parseDigits as).map (fun n => (n : ℚ))
    | as, bs =>
      match parseDigits as, parseFrac bs with
      | some i, some f => some ((i : ℚ) + f)
      | _, _ => none

/-- An unsigned float literal: mantissa with optional signed exponent. -/
def parseUnsignedFloat (cs : List Char) : Option ℚ :=
  match splitAtExp cs with
  | (ms, none) => parseMantissa ms
  | (ms, some es) =>
    match parseMantissa ms, pyIntCore es with
    | some m, some k => some (m * (10 : ℚ) ^ k)
    | _, _ => none

/-- Python `float(s)`, `none` for `ValueError`.  (`inf`/`nan` literals are not
modelled; the code never feeds them in.) -/
def pyFloatOfString (s : String) : Option ℚ :=
  match stripChars s.toList with
  | [] => none
  | c :: cs =>
    if c == '-' then (parseUnsignedFloat cs).map (fun q => -q)
    else if c == '+' then parseUnsignedFloat cs
    else parseUnsignedFloat (c :: cs)

/-- `str(x)` for a Python float modelled as the rational `q`: a decimal string
that `float()` parses back to exactly `q`.  Every IEEE float is a rational
whose denominator divides a power of ten, and for those values this printer is
exact; CPython prints the shortest such string instead, a difference no claim
observes. -/
def pyFloatRepr (q : ℚ) : String :=
  String.mk (intChars (q.num * ((10 ^ q.den : ℤ) / (q.den : ℤ))) ++ 'e' :: '-' :: natChars q.den)

/-! ## The JSON backend (`storage_json.py`)

`_load_data` returns `{}` when the file does not exist and catches
`json.JSONDecodeError` and `OSError`; `_save_data` rewrites the whole
document.  The file is modelled at the `json` module boundary: `invalid`
covers the empty file and any content `json.load` rejects; `doc m` is a file
that decodes to a title-keyed object of records.  (A file holding valid JSON
that is not such an object is outside the modelled scope; no claim touches
one.) -/

inductive JsonFile where
  | absent
  | invalid
  | doc (movies : Movies)
deriving DecidableEq

/-- `StorageJson._load_data`. -/
def StorageJson.load_data : JsonFile → Movies
  | .doc m => m
  | _ => []

/-- `StorageJson._save_data`. -/
def StorageJson.save_data (m : Movies) : JsonFile :=
  .doc m

/-- `StorageJson.list_movies`. -/
def StorageJson.list_movies (f : JsonFile) : Movies :=
  StorageJson.load_data f

/-- `StorageJson.add_movie`. -/
def StorageJson.add_movie (f : JsonFile) (title : String) (year rating poster : PyVal) : JsonFile :=
  StorageJson.save_data (dictInsert (StorageJson.load_data f) title ⟨year, rating, poster⟩)

/-- `StorageJson.delete_movie`. -/
def StorageJson.delete_movie (f : JsonFile) (title : String) : JsonFile :=
  StorageJson.save_data (dictDelete (StorageJson.load_data f) title)

/-- `StorageJson.update_movie`. -/
def StorageJson.update_movie (f : JsonFile) (title : String) (rating : ℚ) : JsonFile :=
  StorageJson.save_data
    (if dictContains (StorageJson.load_data f) title
     then updRating (StorageJson.load_data f) title rating
     else StorageJson.load_data f)

/-! ## The CSV backend (`storage_csv.py`)

The file is modelled at the `csv` module boundary: `rows` is the list of rows
of cell strings as `csv.reader` tokenises them (quoting/unquoting of cells is
the csv module's job and is bypassed by working at this level); `malformed`
is a file the csv module itself rejects (`csv.Error`) or an `IOError`, both
caught by `_load_data`.  `DictReader` semantics: the first row is the header,
blank rows are skipped, a row's cell for a header field is looked up by the
field's position (`none` standing for the restval `None` when the row is
short), and a field absent from the header raises `KeyError`. -/

inductive CsvFile where
  | absent
  | malformed
  | rows (rs : List (List String))
deriving DecidableEq

/-- The header `_save_data` writes: `["title", "year", "rating", "poster"]`. -/
def csvHeader : List String :=
  ["title", "year", "rating", "poster"]

/-- Position of a field in the header row. -/
def fieldIdx (header : List String) (f : String) : Option ℕ :=
  match header with
  | [] => none
  | h :: t => if h == f then some 0 else (fieldIdx t f).map (· + 1)

/-- Cell of a row at a position; `none` past the end of a short row. -/
def cellAt : List String → ℕ → Option String
  | [], _ => none
  | c :: _, 0 => some c
  | _ :: cs, n + 1 => cellAt cs n

/-- `row[field]` on a `DictReader` row: `KeyError` when the field is not in
the header, otherwise the cell (or the restval `None` for a short row). -/
def rowGet (header row : List String) (f : String) : Except PyErr (Option String) :=
  match fieldIdx header f with
  | none => .error .keyError
  | some i => .ok (cellAt row i)

/-- `int(row["year"])` under `except ValueError: year = None`: a missing cell
is `int(None)`, a `TypeError` the code does not catch. -/
def parseYearCell : Option String → Except PyErr PyVal
  | none => .error .typeError
  | some s =>
    .ok (match pyIntOfString s with
         | some n => .vint n
         | none => .vnone)

/-- `float(row["rating"])` under `except ValueError: rating = None`. -/
def parseRatingCell : Option String → Except PyErr PyVal
  | none => .error .typeError
  | some s =>
    .ok (match pyFloatOfString s with
         | some q => .vfloat q
         | none => .vnone)

/-- `poster = row["poster"]`: stored as read, `None` for a short row. -/
def posterVal : Option String → PyVal
  | none => .vnone
  | some s => .vstr s

/-- One iteration of the `for row in reader` loop body: blank rows are
skipped; otherwise title, year, rating, poster are read in the source's
order.  (A row whose `title` cell is the restval `None` would give a
non-string dict key in Python; that corner is outside the modelled scope and
is represented by the empty-string key.) -/
def parseRow (header row : List String) : Except PyErr (Option (String × Movie)) :=
  match row with
  | [] => .ok none
  | _ :: _ =>
    match rowGet header row "title" with
    | .error e => .error e
    | .ok titleCell =>
      match rowGet header row "year" with
      | .error e => .error e
      | .ok yc =>
        match parseYearCell yc with
        | .error e => .error e
        | .ok year =>
          match rowGet header row "rating" with
          | .error e => .error e
          | .ok rc =>
            match parseRatingCell rc with
            | .error e => .error e
            | .ok rating =>
              match rowGet header row "poster" with
              | .error e => .error e
              | .ok pc => .ok (some (titleCell.getD "", ⟨year, rating, posterVal pc⟩))

/-- The `for row in reader` loop, building up the movies dict. -/
def loadRows (header : List String) : List (List String) → Movies → Except PyErr Movies
  | [], acc => .ok acc
  | r :: rs, acc =>
    match parseRow header r with
    | .error e => .error e
    | .ok none => loadRows header rs acc
    | .ok (some (t, rec)) => loadRows header rs (dictInsert acc t rec)

/-- `StorageCsv._load_data`: absent file is `{}`; `IOError`/`csv.Error`/
`KeyError` degrade to `{}`; a `TypeError` from `int(None)`/`float(None)` is
not caught and propagates. -/
def StorageCsv.load_data : CsvFile → Except PyErr Movies
  | .absent => .ok []
  | .malformed => .ok []
  | .rows [] => .ok []
  | .rows (h :: rs) =>
    match loadRows h rs [] with
    | .ok m => .ok m
    | .error .keyError => .ok []
    | .error e => .error e

/-- The cell string `csv.DictWriter` produces for a stored value: `str(v)`,
with `None` written as the empty field. -/
def cellStr : PyVal → String
  | .vnone => ""
  | .vstr s => s
  | .vint n => pyIntRepr n
  | .vfloat q => pyFloatRepr q

/-- The data row `_save_data` writes for one record. -/
def rowOf (p : String × Movie) : List String :=
  [p.1, cellStr p.2.year, cellStr p.2.rating, cellStr p.2.poster]

/-- `StorageCsv._save_data`: header row then one data row per record. -/
def StorageCsv.save_data (m : Movies) : CsvFile :=
  .rows (csvHeader :: m.map rowOf)

/-- `StorageCsv.list_movies`. -/
def StorageCsv.list_movies (f : CsvFile) : Except PyErr Movies :=
  StorageCsv.load_data f

/-- `StorageCsv.add_movie` (an exception from `_load_data` propagates before
`_save_data` runs). -/
def StorageCsv.add_movie (f : CsvFile) (title : String) (year rating poster : PyVal) :
    Except PyErr CsvFile :=
  match StorageCsv.load_data f with
  | .error e => .error e
  | .ok m => .ok (StorageCsv.save_data (dictInsert m title ⟨year, rating, poster⟩))

/-- `StorageCsv.delete_movie`. -/
def StorageCsv.delete_movie (f : CsvFile) (title : String) : Except PyErr CsvFile :=
  match StorageCsv.load_data f with
  | .error e => .error e
  | .ok m => .ok (StorageCsv.save_data (dictDelete m title))

/-- `StorageCsv.update_movie`. -/
def StorageCsv.update_movie (f : CsvFile) (title : String) (rating : ℚ) : Except PyErr CsvFile :=
  match StorageCsv.load_data f with
  | .error e => .error e
  | .ok m => .ok (StorageCsv.save_data (if dictContains m title then updRating m title rating else m))

/-! ## The collection manager (`movie_app.py`) -/

/-- The OMDb response body, a JSON object of string fields (`Title`, `Year`,
`imdbRating`, `Poster`, `Response`, ...). -/
abbrev OmdbData := List (String × String)

/-- `data.get(k)`. -/
def dget (d : OmdbData) (k : String) : Option String :=
  (d.find? (fun p => p.1 == k)).map Prod.snd

/-- `data.get(k, default)`. -/
def dgetD (d : OmdbData) (k : String) (v : String) : String :=
  (dget d k).getD v

/-- The outcome of `requests.get(...)` + `raise_for_status()`: either some
`RequestException` (connection failure, timeout, 4xx/5xx status), or a
response whose body decodes to `data`. -/
inductive ApiResult where
  | requestError
  | ok (data : OmdbData)

/-- `MovieApp._fetch_movie_data`: `None` on a request error and on an OMDb
`{"Response": "False", ...}` not-found body, otherwise the response data. -/
def MovieApp.fetch_movie_data : ApiResult → Option OmdbData
  | .requestError => none
  | .ok d => if dget d "Response" = some "False" then none else some d

/-- `MovieApp._command_add_movie`, parametrised over the storage object's
`add_movie` method (`stAdd`).  The returned state is the storage state after
the command; every abort path returns the state untouched, which is exactly
"no storage call was made". -/
def MovieApp.command_add_movie {σ : Type} (stAdd : σ → String → PyVal → PyVal → PyVal → σ)
    (input : String) (api : ApiResult) (st : σ) : σ :=
  let title := pyStrip input
  if title = "" then st
  else
    match MovieApp.fetch_movie_data api with
    | none => st
    | some d =>
      if d.isEmpty then st
      else
        let year : ℤ := (pyIntOfString (dgetD d "Year" "0")).getD 0
        let rating : ℚ := (pyFloatOfString (dgetD d "imdbRating" "0")).getD 0
        let poster := dgetD d "Poster" "N/A"
        let realTitle := dgetD d "Title" title
        stAdd st realTitle (.vint year) (.vfloat rating) (.vstr poster)

/-- `isinstance(x, (int, float))`. -/
def isNum : PyVal → Bool
  | .vint _ => true
  | .vfloat _ => true
  | _ => false

/-- The numeric value of an int-or-float `PyVal` (0 on other constructors,
which the callers never reach). -/
def toQ : PyVal → ℚ
  | .vint n => (n : ℚ)
  | .vfloat q => q
  | _ => 0

/-- Python `a < b` on record values: numeric comparison between ints and
floats, lexicographic between strings, `TypeError` on any other mix. -/
def pyLt (a b : PyVal) : Except PyErr Bool :=
  if isNum a && isNum b then .ok (decide (toQ a < toQ b))
  else
    match a, b with
    | .vstr x, .vstr y => .ok (decide (x < y))
    | _, _ => .error .typeError

/-- Python `a > b` (for the modelled value classes, `a > b` is `b < a`). -/
def pyGt (a b : PyVal) : Except PyErr Bool :=
  pyLt b a

/-- The loop inside Python `max(iterable, key=...)`: keep the first item,
replace it only on a strictly greater key. -/
def pyMaxGo (key : Movie → PyVal) (best : String) (bestv : PyVal) :
    Movies → Except PyErr String
  | [] => .ok best
  | (t, rec) :: rest =>
    match pyGt (key rec) bestv with
    | .error e => .error e
    | .ok true => pyMaxGo key t (key rec) rest
    | .ok false => pyMaxGo key best bestv rest

/-- `max(movies, key=lambda t: movies[t]["rating"])` over the dict's
insertion order. -/
def pyMax (key : Movie → PyVal) : Movies → Except PyErr String
  | [] => .error .valueError
  | (t, rec) :: rest => pyMaxGo key t (key rec) rest

/-- The loop inside Python `min(iterable, key=...)`. -/
def pyMinGo (key : Movie → PyVal) (best : String) (bestv : PyVal) :
    Movies → Except PyErr String
  | [] => .ok best
  | (t, rec) :: rest =>
    match pyLt (key rec) bestv with
    | .error e => .error e
    | .ok true => pyMinGo key t (key rec) rest
    | .ok false => pyMinGo key best bestv rest

/-- `min(movies, key=lambda t: movies[t]["rating"])`. -/
def pyMin (key : Movie → PyVal) : Movies → Except PyErr String
  | [] => .error .valueError
  | (t, rec) :: rest => pyMinGo key t (key rec) rest

/-- What `_command_movie_stats` does with the listed collection. -/
inductive StatsResult where
  | noMovies
  | noValidRatings
  | raised (e : PyErr)
  | ok (count : ℕ) (avg : ℚ) (maxTitle : String) (minTitle : String)
deriving DecidableEq

/-- `MovieApp._command_movie_stats`, applied to the collection returned by
`list_movies`: filter the ratings that are numbers for the average, but — as
in the source — run `max` and `min` over the unfiltered collection. -/
def MovieApp.command_movie_stats (movies : Movies) : StatsResult :=
  if movies.isEmpty then .noMovies
  else
    let ratings := (movies.map (fun p => p.2.rating)).filter isNum
    if ratings.isEmpty then .noValidRatings
    else
      let avg := (ratings.map toQ).sum / (ratings.length : ℚ)
      match pyMax (fun rec => rec.rating) movies with
      | .error e => .raised e
      | .ok maxT =>
        match pyMin (fun rec => rec.rating) movies with
        | .error e => .raised e
        | .ok minT => .ok movies.length avg maxT minT

/-- The two-decimal display of the average, `f"{avg:.2f}"`.  (CPython rounds
the double half-to-even; `round` here rounds half away from the lower value —
the two differ only on an exact half-hundredth, which no claim exercises.) -/
def formatTwoDec (q : ℚ) : String :=
  let c : ℤ := round (q * 100)
  let sgn := if c < 0 then "-" else ""
  let a := c.natAbs
  sgn ++ natRepr (a / 100) ++ "." ++ (if a % 100 < 10 then "0" else "") ++ natRepr (a % 100)

/-! ## Well-formed collections

The data-model domain of §3 of the spec: a year is an integer or the absent
sentinel, a rating is a float or the absent sentinel, a poster is text.  A
float's denominator divides a power of ten (true of every IEEE value), packed
here as `q.den ∣ 10 ^ q.den`, which is equivalent and decidable. -/

def yearOk : PyVal → Bool
  | .vint _ => true
  | .vnone => true
  | _ => false

def ratingOk : PyVal → Bool
  | .vfloat q => decide (q.den ∣ 10 ^ q.den)
  | .vnone => true
  | _ => false

def posterOk : PyVal → Bool
  | .vstr _ => true
  | _ => false

def recordOk (r : Movie) : Bool :=
  yearOk r.year && ratingOk r.rating && posterOk r.poster

def wellFormed (m : Movies) : Bool :=
  m.all (fun p => recordOk p.2)

/-! ## Round-trip of the numeric conversions

`int(str(n)) = n` and `float(str(x)) = x` — the facts behind the CSV
round-trip property. -/

theorem digitChar_facts (d : ℕ) (h : d < 10) :
    charDigit? (Nat.digitChar d) = some d ∧
    isSpaceChar (Nat.digitChar d) = false ∧
    (Nat.digitChar d == 'e') = false ∧
    (Nat.digitChar d == 'E') = false ∧
    (Nat.digitChar d == '.') = false ∧
    (Nat.digitChar d == '-') = false ∧
    (Nat.digitChar d == '+') = false := by
  interval_cases d <;> exact ⟨rfl, rfl, rfl, rfl, rfl, rfl, rfl⟩

theorem natCharsAux_mem (fuel : ℕ) :
    ∀ n c, c ∈ natCharsAux fuel n → ∃ d, d < 10 ∧ c = Nat.digitChar d := by
  induction fuel with
  | zero => intro n c hc; simp [natCharsAux] at hc
  | succ fuel ih =>
    intro n c hc
    match n with
    | 0 => simp [natCharsAux] at hc
    | n + 1 =>
      simp only [natCharsAux, List.mem_cons] at hc
      rcases hc with rfl | hc
      · exact ⟨(n + 1) % 10, Nat.mod_lt _ (by norm_num), rfl⟩
      · exact ih _ c hc

theorem natChars_mem (n : ℕ) :
    ∀ c ∈ natChars n, ∃ d, d < 10 ∧ c = Nat.digitChar d := by
  intro c hc
  unfold natChars at hc
  split at hc
  · simp only [List.mem_singleton] at hc
    exact ⟨0, by norm_num, by rw [hc]; rfl⟩
  · rw [List.mem_reverse] at hc
    exact natCharsAux_mem n n c hc

theorem natChars_props (n : ℕ) :
    ∀ c ∈ natChars n, isSpaceChar c = false ∧ (c == 'e') = false ∧ (c == 'E') = false ∧
      (c == '.') = false ∧ (c == '-') = false ∧ (c == '+') = false := by
  intro c hc
  obtain ⟨d, hd, rfl⟩ := natChars_mem n c hc
  have h := digitChar_facts d hd
  exact ⟨h.2.1, h.2.2.1, h.2.2.2.1, h.2.2.2.2.1, h.2.2.2.2.2.1, h.2.2.2.2.2.2⟩

theorem natChars_ne_nil (n : ℕ) : natChars n ≠ [] := by
  unfold natChars
  split
  · simp
  · match n with
    | n + 1 =>
      show (Nat.digitChar ((n + 1) % 10) :: natCharsAux n ((n + 1) / 10)).reverse ≠ []
      simp

theorem digitsVal_append (xs ys : List Char) (acc : ℕ) :
    digitsVal (xs ++ ys) acc =
      match digitsVal xs acc with
      | some a => digitsVal ys a
      | none => none := by
  induction xs generalizing acc with
  | nil => rfl
  | cons c cs ih =>
    simp only [List.cons_append, digitsVal]
    cases charDigit? c with
    | some d => exact ih _
    | none => rfl

theorem natCharsAux_zero (fuel : ℕ) : natCharsAux fuel 0 = [] := by
  cases fuel <;> rfl

theorem digitsVal_natCharsAux (fuel : ℕ) :
    ∀ n acc, 0 < n → n ≤ fuel →
      digitsVal (natCharsAux fuel n).reverse acc =
        some (acc * 10 ^ (natCharsAux fuel n).length + n) := by
  induction fuel with
  | zero => intro n acc h1 h2; omega
  | succ fuel ih =>
    intro n acc h1 h2
    match n, h1 with
    | n + 1, _ =>
      have hd : charDigit? (Nat.digitChar ((n + 1) % 10)) = some ((n + 1) % 10) :=
        (digitChar_facts _ (Nat.mod_lt _ (by norm_num))).1
      show digitsVal (Nat.digitChar ((n + 1) % 10) :: natCharsAux fuel ((n + 1) / 10)).reverse acc
            = some (acc * 10 ^ (Nat.digitChar ((n + 1) % 10) ::
                natCharsAux fuel ((n + 1) / 10)).length + (n + 1))
      rw [List.reverse_cons, digitsVal_append]
      rcases Nat.eq_zero_or_pos ((n + 1) / 10) with hq | hq
      · rw [hq, natCharsAux_zero]
        simp only [List.reverse_nil, digitsVal, hd, List.length_cons, List.length_nil]
        have hlt : n + 1 < 10 := by omega
        have hmod : (n + 1) % 10 = n + 1 := Nat.mod_eq_of_lt hlt
        rw [hmod]
        norm_num
        ring
      · have hle : (n + 1) / 10 ≤ fuel := by omega
        rw [ih _ acc hq hle]
        simp only [digitsVal, hd, List.length_cons]
        congr 1
        rw [pow_succ, ← mul_assoc]
        set A := acc * 10 ^ (natCharsAux fuel ((n + 1) / 10)).length with hA
        omega

theorem parseDigits_natChars (n : ℕ) : parseDigits (natChars n) = some n := by
  rcases Nat.eq_zero_or_pos n with rfl | hn
  · decide
  · have h := digitsVal_natCharsAux n n 0 hn le_rfl
    obtain ⟨c, cs, hcs⟩ := List.exists_cons_of_ne_nil (natChars_ne_nil n)
    have hnc : natChars n = (natCharsAux n n).reverse := by
      unfold natChars; rw [if_neg (by omega)]
    rw [hnc] at hcs
    rw [hnc, hcs]
    rw [hcs] at h
    simp only [parseDigits]
    rw [h]
    simp

theorem dropWhile_eq_self_of_all (p : Char → Bool) (l : List Char)
    (h : ∀ c ∈ l, p c = false) : List.dropWhile p l = l := by
  cases l with
  | nil => rfl
  | cons a l => simp [List.dropWhile_cons, h a (List.mem_cons_self a l)]

theorem stripChars_eq_self (l : List Char) (h : ∀ c ∈ l, isSpaceChar c = false) :
    stripChars l = l := by
  unfold stripChars
  rw [dropWhile_eq_self_of_all _ _ h,
    dropWhile_eq_self_of_all _ _ (fun c hc => h c (List.mem_reverse.mp hc)),
    List.reverse_reverse]

theorem intChars_not_space (n : ℤ) : ∀ c ∈ intChars n, isSpaceChar c = false := by
  intro c hc
  unfold intChars at hc
  split at hc
  · rcases List.mem_cons.mp hc with rfl | hc
    · rfl
    · exact (natChars_props _ c hc).1
  · exact (natChars_props _ c hc).1

theorem pyIntCore_dash (cs : List Char) :
    pyIntCore ('-' :: cs) = (parseDigits cs).map (fun n => -(n : ℤ)) := by
  simp only [pyIntCore]
  rw [if_pos (by rfl)]

theorem pyIntCore_of_digit (c : Char) (cs : List Char)
    (h1 : (c == '-') = false) (h2 : (c == '+') = false) :
    pyIntCore (c :: cs) = (parseDigits (c :: cs)).map (fun n => (n : ℤ)) := by
  simp only [pyIntCore]
  rw [if_neg (by simp [h1]), if_neg (by simp [h2])]

theorem pyIntOfString_pyIntRepr (n : ℤ) : pyIntOfString (pyIntRepr n) = some n := by
  unfold pyIntOfString pyIntRepr
  have hs : (String.mk (intChars n)).toList = intChars n := rfl
  rw [hs, stripChars_eq_self _ (intChars_not_space n)]
  unfold intChars
  split
  case isTrue h =>
    rw [pyIntCore_dash, parseDigits_natChars]
    show some (-(n.natAbs : ℤ)) = some n
    congr 1
    omega
  case isFalse h =>
    obtain ⟨c, cs, hcs⟩ := List.exists_cons_of_ne_nil (natChars_ne_nil n.natAbs)
    have hprops := natChars_props n.natAbs c (by rw [hcs]; exact List.mem_cons_self c cs)
    rw [hcs, pyIntCore_of_digit c cs hprops.2.2.2.2.1 hprops.2.2.2.2.2, ← hcs,
      parseDigits_natChars]
    show some ((n.natAbs : ℤ)) = some n
    congr 1
    omega

theorem splitAtExp_append (as bs : List Char)
    (h : ∀ c ∈ as, (c == 'e') = false ∧ (c == 'E') = false) :
    splitAtExp (as ++ 'e' :: bs) = (as, some bs) := by
  induction as with
  | nil => simp [splitAtExp]
  | cons a as ih =>
    have ha := h a (List.mem_cons_self a as)
    have ih' := ih (fun c hc => h c (List.mem_cons_of_mem a hc))
    simp only [List.cons_append, splitAtExp, ha.1, ha.2, Bool.or_self, Bool.false_eq_true,
      if_false, List.append_eq, ih']

theorem splitAtDot_of_no_dot (cs : List Char) (h : ∀ c ∈ cs, (c == '.') = false) :
    splitAtDot cs = (cs, none) := by
  induction cs with
  | nil => rfl
  | cons a l ih =>
    have ha := h a (List.mem_cons_self a l)
    have ih' := ih (fun c hc => h c (List.mem_cons_of_mem a hc))
    simp only [splitAtDot, ha, Bool.false_eq_true, if_false, ih']

theorem parseMantissa_natChars (a : ℕ) : parseMantissa (natChars a) = some (a : ℚ) := by
  unfold parseMantissa
  rw [splitAtDot_of_no_dot _ (fun c hc => (natChars_props a c hc).2.2.2.1)]
  show (parseDigits (natChars a)).map (fun n => (n : ℚ)) = some (a : ℚ)
  rw [parseDigits_natChars]
  rfl

theorem pyIntCore_neg_natChars (k : ℕ) : pyIntCore ('-' :: natChars k) = some (-(k : ℤ)) := by
  rw [pyIntCore_dash, parseDigits_natChars]
  rfl

theorem parseUnsignedFloat_shape (a k : ℕ) :
    parseUnsignedFloat (natChars a ++ 'e' :: '-' :: natChars k)
      = some ((a : ℚ) * (10 : ℚ) ^ (-(k : ℤ))) := by
  unfold parseUnsignedFloat
  rw [splitAtExp_append _ _
    (fun c hc => ⟨(natChars_props a c hc).2.1, (natChars_props a c hc).2.2.1⟩)]
  show (match parseMantissa (natChars a), pyIntCore ('-' :: natChars k) with
        | some m, some k => some (m * (10 : ℚ) ^ k)
        | _, _ => none) = some ((a : ℚ) * (10 : ℚ) ^ (-(k : ℤ)))
  rw [parseMantissa_natChars, pyIntCore_neg_natChars]

theorem float_value_eq (q : ℚ) (h : q.den ∣ 10 ^ q.den) :
    ((q.num * ((10 ^ q.den : ℤ) / (q.den : ℤ)) : ℤ) : ℚ) * ((10 : ℚ) ^ q.den)⁻¹ = q := by
  have hdvd : (q.den : ℤ) ∣ (10 : ℤ) ^ q.den := by exact_mod_cast h
  have hck : (q.den : ℤ) * ((10 ^ q.den : ℤ) / (q.den : ℤ)) = 10 ^ q.den :=
    Int.mul_ediv_cancel' hdvd
  have hden0 : ((q.den : ℚ)) ≠ 0 := Nat.cast_ne_zero.mpr q.den_nz
  have h10 : ((10 : ℚ)) ^ q.den ≠ 0 := pow_ne_zero _ (by norm_num)
  rw [mul_inv_eq_iff_eq_mul₀ h10]
  have hckQ : ((q.den : ℚ)) * (((10 ^ q.den : ℤ) / (q.den : ℤ) : ℤ) : ℚ) = (10 : ℚ) ^ q.den := by
    exact_mod_cast hck
  rw [← hckQ, ← mul_assoc]
  rw [Rat.mul_den_eq_num]
  push_cast
  ring

theorem pyFloatRepr_chars (q : ℚ) :
    (pyFloatRepr q).toList
      = intChars (q.num * ((10 ^ q.den : ℤ) / (q.den : ℤ))) ++ 'e' :: '-' :: natChars q.den := rfl

theorem pyFloatRepr_not_space (q : ℚ) :
    ∀ c ∈ (pyFloatRepr q).toList, isSpaceChar c = false := by
  intro c hc
  rw [pyFloatRepr_chars] at hc
  rcases List.mem_append.mp hc with hc | hc
  · exact intChars_not_space _ c hc
  · rcases List.mem_cons.mp hc with rfl | hc
    · rfl
    · rcases List.mem_cons.mp hc with rfl | hc
      · rfl
      · exact (natChars_props _ c hc).1

theorem pyFloatOfString_pyFloatRepr (q : ℚ) (h : q.den ∣ 10 ^ q.den) :
    pyFloatOfString (pyFloatRepr q) = some q := by
  unfold pyFloatOfString
  rw [pyFloatRepr_chars q]
  rw [stripChars_eq_self _ (by
    rw [← pyFloatRepr_chars q]
    exact pyFloatRepr_not_space q)]
  set M : ℤ := q.num * ((10 ^ q.den : ℤ) / (q.den : ℤ)) with hM
  have hval := float_value_eq q h
  rw [← hM] at hval
  unfold intChars
  by_cases hm : M < 0
  · rw [if_pos hm]
    show (if ('-' == '-') = true then
            (parseUnsignedFloat (natChars M.natAbs ++ 'e' :: '-' :: natChars q.den)).map
              (fun q => -q)
          else _) = some q
    rw [if_pos (by rfl), parseUnsignedFloat_shape]
    have habs : ((M.natAbs : ℚ)) = -(M : ℚ) := by
      rw [Int.cast_natAbs]
      exact_mod_cast abs_of_neg hm
    rw [zpow_neg, zpow_natCast] at *
    simp only [Option.map_some']
    congr 1
    rw [habs, neg_mul, neg_neg, hval]
  · rw [if_neg hm]
    obtain ⟨c, cs, hcs⟩ := List.exists_cons_of_ne_nil (natChars_ne_nil M.natAbs)
    have hprops := natChars_props M.natAbs c (by rw [hcs]; exact List.mem_cons_self c cs)
    rw [hcs, List.cons_append]
    show (if (c == '-') = true then _ else if (c == '+') = true then _
          else parseUnsignedFloat (c :: (cs ++ 'e' :: '-' :: natChars q.den))) = some q
    rw [if_neg (by simp [hprops.2.2.2.2.1]), if_neg (by simp [hprops.2.2.2.2.2]),
      ← List.cons_append, ← hcs, parseUnsignedFloat_shape]
    have habs : ((M.natAbs : ℚ)) = (M : ℚ) := by
      rw [Int.cast_natAbs]
      exact_mod_cast abs_of_nonneg (not_lt.mp hm)
    rw [zpow_neg, zpow_natCast, habs, hval]

/-! ## Dictionary lemmas -/

theorem dictInsert_fresh (m : Movies) (k : String) (v : Movie)
    (h : dictContains m k = false) : dictInsert m k v = m ++ [(k, v)] := by
  simp [dictInsert, h]

theorem dictGet_cons (p : String × Movie) (l : Movies) (k : String) :
    dictGet (p :: l) k = if (p.1 == k) = true then some p.2 else dictGet l k := by
  by_cases h : (p.1 == k) = true
  · unfold dictGet
    rw [@List.find?_cons_of_pos _ (fun x => x.1 == k) p l h, if_pos h]
    rfl
  · unfold dictGet
    rw [@List.find?_cons_of_neg _ (fun x => x.1 == k) p l h, if_neg h]

theorem updRating_cons (p : String × Movie) (l : Movies) (t : String) (r : ℚ) :
    updRating (p :: l) t r
      = (if (p.1 == t) = true then (p.1, ⟨p.2.year, .vfloat r, p.2.poster⟩) else p)
          :: updRating l t r := by
  simp [updRating]

theorem updRating_keys (m : Movies) (t : String) (r : ℚ) :
    (updRating m t r).map Prod.fst = m.map Prod.fst := by
  induction m with
  | nil => rfl
  | cons p l ih =>
    rw [updRating_cons, List.map_cons, List.map_cons, ih]
    congr 1
    split <;> rfl

theorem nodupKeys_updRating (m : Movies) (t : String) (r : ℚ) (h : nodupKeys m) :
    nodupKeys (updRating m t r) := by
  unfold nodupKeys at *
  rw [updRating_keys]
  exact h

theorem wellFormed_updRating (m : Movies) (t : String) (r : ℚ)
    (hwf : wellFormed m = true) (hr : r.den ∣ 10 ^ r.den) :
    wellFormed (updRating m t r) = true := by
  induction m with
  | nil => rfl
  | cons p l ih =>
    simp only [wellFormed, List.all_cons, Bool.and_eq_true] at hwf
    rw [updRating_cons]
    simp only [wellFormed, List.all_cons, Bool.and_eq_true]
    refine ⟨?_, by simpa [wellFormed] using ih hwf.2⟩
    split
    · simp only [recordOk, ratingOk, Bool.and_eq_true] at hwf ⊢
      exact ⟨⟨hwf.1.1.1, decide_eq_true hr⟩, hwf.1.2⟩
    · exact hwf.1

theorem wellFormed_filter (m : Movies) (p : String × Movie → Bool)
    (hwf : wellFormed m = true) : wellFormed (m.filter p) = true := by
  simp only [wellFormed, List.all_eq_true] at *
  intro x hx
  exact hwf x (List.mem_of_mem_filter hx)

theorem nodupKeys_filter (m : Movies) (p : String × Movie → Bool) (h : nodupKeys m) :
    nodupKeys (m.filter p) := by
  unfold nodupKeys at *
  exact List.Nodup.sublist ((List.filter_sublist m).map Prod.fst) h

theorem dictDelete_not_contains (m : Movies) (t : String)
    (h : dictContains m t = false) : dictDelete m t = m := by
  unfold dictDelete
  apply List.filter_eq_self.mpr
  intro p hp
  simp only [dictContains, List.any_eq_false] at h
  simp [bne, h p hp]

theorem dictDelete_dictDelete (m : Movies) (t : String) :
    dictDelete (dictDelete m t) t = dictDelete m t := by
  unfold dictDelete
  rw [List.filter_filter]
  simp

theorem dictGet_updRating_self (m : Movies) (t : String) (r : ℚ) :
    dictGet (updRating m t r) t
      = (dictGet m t).map (fun rec => ⟨rec.year, .vfloat r, rec.poster⟩) := by
  induction m with
  | nil => rfl
  | cons p l ih =>
    rw [updRating_cons]
    by_cases h : (p.1 == t) = true
    · rw [if_pos h, dictGet_cons, dictGet_cons]
      simp [h]
    · rw [if_neg h, dictGet_cons, dictGet_cons]
      simp [h, ih]

theorem dictGet_updRating_other (m : Movies) (t : String) (r : ℚ) (v : String)
    (hne : v ≠ t) : dictGet (updRating m t r) v = dictGet m v := by
  induction m with
  | nil => rfl
  | cons p l ih =>
    rw [updRating_cons]
    by_cases h : (p.1 == t) = true
    · have hpt : p.1 = t := by simpa using h
      have hv : ¬((p.1 == v) = true) := by
        simp [hpt]
        intro he
        exact hne he.symm
      rw [if_pos h, dictGet_cons, dictGet_cons]
      simp only [if_neg hv]
      exact ih
    · rw [if_neg h, dictGet_cons, dictGet_cons]
      by_cases hq : (p.1 == v) = true
      · rw [if_pos hq, if_pos hq]
      · rw [if_neg hq, if_neg hq]
        exact ih

/-! ## The CSV save/load round trip -/

theorem rowGet_saved_title (a b c d : String) :
    rowGet csvHeader [a, b, c, d] "title" = .ok (some a) := rfl

theorem rowGet_saved_year (a b c d : String) :
    rowGet csvHeader [a, b, c, d] "year" = .ok (some b) := rfl

theorem rowGet_saved_rating (a b c d : String) :
    rowGet csvHeader [a, b, c, d] "rating" = .ok (some c) := rfl

theorem rowGet_saved_poster (a b c d : String) :
    rowGet csvHeader [a, b, c, d] "poster" = .ok (some d) := rfl

theorem parseYearCell_cellStr (v : PyVal) (h : yearOk v = true) :
    parseYearCell (some (cellStr v)) = .ok v := by
  cases v with
  | vint n => simp [parseYearCell, cellStr, pyIntOfString_pyIntRepr]
  | vnone => rfl
  | vfloat q => simp [yearOk] at h
  | vstr s => simp [yearOk] at h

theorem parseRatingCell_cellStr (v : PyVal) (h : ratingOk v = true) :
    parseRatingCell (some (cellStr v)) = .ok v := by
  cases v with
  | vfloat q =>
    have hd : q.den ∣ 10 ^ q.den := of_decide_eq_true (by simpa [ratingOk] using h)
    simp [parseRatingCell, cellStr, pyFloatOfString_pyFloatRepr q hd]
  | vnone => rfl
  | vint n => simp [ratingOk] at h
  | vstr s => simp [ratingOk] at h

theorem parseRow_rowOf (t : String) (rec : Movie) (h : recordOk rec = true) :
    parseRow csvHeader (rowOf (t, rec)) = .ok (some (t, rec)) := by
  obtain ⟨y, r, p⟩ := rec
  simp only [recordOk, Bool.and_eq_true] at h
  show parseRow csvHeader [t, cellStr y, cellStr r, cellStr p] = .ok (some (t, ⟨y, r, p⟩))
  simp only [parseRow, rowGet_saved_title, rowGet_saved_year, rowGet_saved_rating,
    rowGet_saved_poster, parseYearCell_cellStr y h.1.1, parseRatingCell_cellStr r h.1.2]
  have hp : posterOk p = true := h.2
  cases p with
  | vstr s => rfl
  | vint n => simp [posterOk] at hp
  | vfloat q => simp [posterOk] at hp
  | vnone => simp [posterOk] at hp

theorem loadRows_map_rowOf (l : Movies) :
    ∀ acc : Movies, wellFormed l = true → nodupKeys l →
      (∀ p ∈ l, dictContains acc p.1 = false) →
      loadRows csvHeader (l.map rowOf) acc = .ok (acc ++ l) := by
  induction l with
  | nil =>
    intro acc _ _ _
    simp [loadRows]
  | cons hd tl ih =>
    intro acc hwf hnd hfresh
    obtain ⟨t, rec⟩ := hd
    simp only [wellFormed, List.all_cons, Bool.and_eq_true] at hwf
    simp only [nodupKeys, List.map_cons, List.nodup_cons] at hnd
    have htl_t : ∀ p ∈ tl, p.1 ≠ t := by
      intro p hp he
      exact hnd.1 (he ▸ List.mem_map_of_mem Prod.fst hp)
    simp only [List.map_cons, loadRows, parseRow_rowOf t rec hwf.1]
    rw [dictInsert_fresh acc t rec (hfresh (t, rec) (List.mem_cons_self _ _))]
    rw [ih (acc ++ [(t, rec)]) hwf.2 hnd.2 ?_]
    · rw [List.append_assoc]
      rfl
    · intro p hp
      show dictContains (acc ++ [(t, rec)]) p.1 = false
      have h1 : dictContains acc p.1 = false := hfresh p (List.mem_cons_of_mem _ hp)
      have h2 : p.1 ≠ t := htl_t p hp
      simp only [dictContains, List.any_append, Bool.or_eq_false_iff]
      refine ⟨h1, ?_⟩
      simp only [List.any_cons, List.any_nil, Bool.or_false]
      simpa using fun he => h2 he.symm

theorem csv_load_save (m : Movies) (hnd : nodupKeys m) (hwf : wellFormed m = true) :
    StorageCsv.load_data (StorageCsv.save_data m) = .ok m := by
  show StorageCsv.load_data (.rows (csvHeader :: m.map rowOf)) = .ok m
  have h := loadRows_map_rowOf m [] hwf hnd (fun p _ => rfl)
  simp only [StorageCsv.load_data, h, List.nil_append]

/-! ## The claims -/

/-- C1: the claim says Statistics filters to valid ratings, computes max/min
over the filtered records, and never raises.  The code filters only for the
average and runs `max`/`min` over the unfiltered collection, so on a
collection mixing a valid rating with the `None` sentinel the comparison
inside `max` raises an uncaught `TypeError`: evaluating the embedded command
at `{"A": rating 5.0, "B": rating None}` yields the raised exception, not a
completed statistics report. -/
theorem c1_stats_raises_on_invalid_rating :
    MovieApp.command_movie_stats
        [("A", ⟨.vint 2020, .vfloat 5, .vstr "pa"⟩), ("B", ⟨.vint 2021, .vnone, .vstr "pb"⟩)]
      = .raised .typeError := by
  decide

/-- C2: Statistics on `{"A": 5.0, "B": 9.0, "C": 9.0}` (any years/posters)
reports count 3, mean 23/3 displayed as "7.67", max title "B" (first of the
tied maxima in iteration order) and min title "A". -/
theorem c2_stats_example (yA yB yC pA pB pC : PyVal) :
    MovieApp.command_movie_stats
        [("A", ⟨yA, .vfloat 5, pA⟩), ("B", ⟨yB, .vfloat 9, pB⟩), ("C", ⟨yC, .vfloat 9, pC⟩)]
      = .ok 3 (23 / 3) "B" "A"
    ∧ formatTwoDec (23 / 3) = "7.67" := by
  constructor
  · norm_num [MovieApp.command_movie_stats, pyMax, pyMaxGo, pyMin, pyMinGo, pyGt, pyLt,
      isNum, toQ]
  · have h : round ((23 : ℚ) / 3 * 100) = 767 := by
      rw [round_eq]
      norm_num
    simp only [formatTwoDec, h]
    decide

/-- C3: the claim says `list()` never raises on corrupt or partially-written
content.  For the CSV backend, a truncated data row (here the file
`"title,year,rating,poster\nA"`) leaves the year cell at the `DictReader`
restval `None`; `int(None)` raises a `TypeError` that the
`except (IOError, KeyError, csv.Error)` handler does not catch, so `list()`
raises instead of returning the empty mapping. -/
theorem c3_csv_truncated_row_raises :
    StorageCsv.list_movies (.rows [["title", "year", "rating", "poster"], ["A"]])
      = .error .typeError := rfl

/-- C4: when the stripped input title is empty, the metadata request fails,
or the metadata source answers not-found, the Add command returns with the
storage state untouched — for every possible storage `add` method, so in
particular no storage call is made and the persisted file is unchanged. -/
theorem c4_add_aborts_without_storage_call {σ : Type}
    (stAdd : σ → String → PyVal → PyVal → PyVal → σ)
    (input : String) (api : ApiResult) (st : σ)
    (h : pyStrip input = "" ∨ api = .requestError ∨
      ∃ d, api = .ok d ∧ dget d "Response" = some "False") :
    MovieApp.command_add_movie stAdd input api st = st := by
  rcases h with h | h | ⟨d, rfl, hresp⟩
  · simp [MovieApp.command_add_movie, h]
  · subst h
    by_cases ht : pyStrip input = ""
    · simp [MovieApp.command_add_movie, ht]
    · simp [MovieApp.command_add_movie, ht, MovieApp.fetch_movie_data]
  · by_cases ht : pyStrip input = ""
    · simp [MovieApp.command_add_movie, ht]
    · simp [MovieApp.command_add_movie, ht, MovieApp.fetch_movie_data, hresp]

theorem c4_witness :
    MovieApp.command_add_movie StorageJson.add_movie "Inception" .requestError (.doc [])
      = .doc [] :=
  c4_add_aborts_without_storage_call StorageJson.add_movie "Inception" .requestError (.doc [])
    (Or.inr (Or.inl rfl))

/-- C5: a successful Add stores the record under the canonical title `T`
returned by the metadata source, with the year the parsed integer (0 when
parsing fails) and the rating the parsed float (0.0 when parsing fails), and
the poster string as returned. -/
theorem c5_add_normalizes {σ : Type}
    (stAdd : σ → String → PyVal → PyVal → PyVal → σ)
    (input : String) (d : OmdbData) (st : σ) (T : String) (y : ℤ) (r : ℚ)
    (hi : ¬ pyStrip input = "")
    (hresp : ¬ dget d "Response" = some "False")
    (hne : d ≠ [])
    (hT : dget d "Title" = some T)
    (hy : pyIntOfString (dgetD d "Year" "0") = some y ∨
      (pyIntOfString (dgetD d "Year" "0") = none ∧ y = 0))
    (hr : pyFloatOfString (dgetD d "imdbRating" "0") = some r ∨
      (pyFloatOfString (dgetD d "imdbRating" "0") = none ∧ r = 0)) :
    MovieApp.command_add_movie stAdd input (.ok d) st
      = stAdd st T (.vint y) (.vfloat r) (.vstr (dgetD d "Poster" "N/A")) := by
  have hEmp : d.isEmpty = false := by
    cases d with
    | nil => exact absurd rfl hne
    | cons a l => rfl
  have hTitle : dgetD d "Title" (pyStrip input) = T := by
    simp [dgetD, hT]
  simp only [MovieApp.command_add_movie, MovieApp.fetch_movie_data, if_neg hi, if_neg hresp,
    hEmp, Bool.false_eq_true, if_false, hTitle]
  rcases hy with hy | ⟨hy, rfl⟩ <;> rcases hr with hr | ⟨hr, rfl⟩ <;> simp [hy, hr]

theorem c5_witness :
    MovieApp.command_add_movie StorageJson.add_movie "titanic"
        (.ok [("Response", "True"), ("Title", "Titanic"), ("Year", "1997"),
          ("imdbRating", "N/A"), ("Poster", "http://img")])
        (.doc [])
      = StorageJson.add_movie (.doc []) "Titanic" (.vint 1997) (.vfloat 0)
          (.vstr "http://img") :=
  c5_add_normalizes StorageJson.add_movie "titanic"
    [("Response", "True"), ("Title", "Titanic"), ("Year", "1997"),
      ("imdbRating", "N/A"), ("Poster", "http://img")]
    (.doc []) "Titanic" 1997 0
    (by decide) (by decide) (by decide) (by decide)
    (Or.inl (by decide)) (Or.inr ⟨by decide, rfl⟩)

/-- C6: for both backends, updating the rating of a present title replaces
only that record's rating (its year and poster, and every other title's
record, are unchanged in the persisted result, read back by `list`). -/
theorem c6_update_replaces_only_rating (m : Movies) (t v : String) (r : ℚ)
    (hnd : nodupKeys m) (hwf : wellFormed m = true) (hr : r.den ∣ 10 ^ r.den)
    (hmem : dictContains m t = true) (hv : v ≠ t) :
    StorageJson.list_movies (StorageJson.update_movie (.doc m) t r) = updRating m t r
    ∧ (StorageCsv.update_movie (StorageCsv.save_data m) t r).bind StorageCsv.load_data
        = .ok (updRating m t r)
    ∧ dictGet (updRating m t r) t
        = (dictGet m t).map (fun rec => ⟨rec.year, .vfloat r, rec.poster⟩)
    ∧ dictGet (updRating m t r) v = dictGet m v := by
  refine ⟨?_, ?_, dictGet_updRating_self m t r, dictGet_updRating_other m t r v hv⟩
  · simp [StorageJson.list_movies, StorageJson.update_movie, StorageJson.load_data,
      StorageJson.save_data, hmem]
  · unfold StorageCsv.update_movie
    rw [csv_load_save m hnd hwf]
    show StorageCsv.load_data
        (StorageCsv.save_data (if dictContains m t = true then updRating m t r else m))
      = .ok (updRating m t r)
    rw [if_pos hmem]
    exact csv_load_save _ (nodupKeys_updRating m t r hnd) (wellFormed_updRating m t r hwf hr)

theorem c6_witness :
    StorageJson.list_movies
        (StorageJson.update_movie
          (.doc [("A", ⟨.vint 2000, .vfloat 5, .vstr "p"⟩), ("B", ⟨.vnone, .vnone, .vstr ""⟩)])
          "A" 7)
      = updRating [("A", ⟨.vint 2000, .vfloat 5, .vstr "p"⟩), ("B", ⟨.vnone, .vnone, .vstr ""⟩)]
          "A" 7
    ∧ (StorageCsv.update_movie
          (StorageCsv.save_data
            [("A", ⟨.vint 2000, .vfloat 5, .vstr "p"⟩), ("B", ⟨.vnone, .vnone, .vstr ""⟩)])
          "A" 7).bind StorageCsv.load_data
        = .ok (updRating
            [("A", ⟨.vint 2000, .vfloat 5, .vstr "p"⟩), ("B", ⟨.vnone, .vnone, .vstr ""⟩)]
            "A" 7)
    ∧ dictGet (updRating
          [("A", ⟨.vint 2000, .vfloat 5, .vstr "p"⟩), ("B", ⟨.vnone, .vnone, .vstr ""⟩)]
          "A" 7) "A"
        = (dictGet [("A", ⟨.vint 2000, .vfloat 5, .vstr "p"⟩), ("B", ⟨.vnone, .vnone, .vstr ""⟩)]
            "A").map (fun rec => ⟨rec.year, .vfloat 7, rec.poster⟩)
    ∧ dictGet (updRating
          [("A", ⟨.vint 2000, .vfloat 5, .vstr "p"⟩), ("B", ⟨.vnone, .vnone, .vstr ""⟩)]
          "A" 7) "B"
        = dictGet [("A", ⟨.vint 2000, .vfloat 5, .vstr "p"⟩), ("B", ⟨.vnone, .vnone, .vstr ""⟩)]
            "B" :=
  c6_update_replaces_only_rating
    [("A", ⟨.vint 2000, .vfloat 5, .vstr "p"⟩), ("B", ⟨.vnone, .vnone, .vstr ""⟩)]
    "A" "B" 7 (by decide) (by decide) (by decide) (by decide) (by decide)

/-- C7: for both backends, updating a title that is not in the collection
leaves the collection unchanged: `list` after the call returns the same
mapping as before. -/
theorem c7_update_absent_noop (m : Movies) (t : String) (r : ℚ)
    (hnd : nodupKeys m) (hwf : wellFormed m = true)
    (habs : dictContains m t = false) :
    StorageJson.list_movies (StorageJson.update_movie (.doc m) t r)
        = StorageJson.list_movies (.doc m)
    ∧ (StorageCsv.update_movie (StorageCsv.save_data m) t r).bind StorageCsv.load_data
        = StorageCsv.list_movies (StorageCsv.save_data m) := by
  constructor
  · simp [StorageJson.list_movies, StorageJson.update_movie, StorageJson.load_data,
      StorageJson.save_data, habs]
  · unfold StorageCsv.update_movie StorageCsv.list_movies
    rw [csv_load_save m hnd hwf]
    show StorageCsv.load_data
        (StorageCsv.save_data (if dictContains m t = true then updRating m t r else m))
      = Except.ok m
    rw [if_neg (by simp [habs])]
    exact csv_load_save m hnd hwf

theorem c7_witness :
    StorageJson.list_movies
        (StorageJson.update_movie (.doc [("A", ⟨.vint 2000, .vfloat 5, .vstr "p"⟩)]) "C" 7)
      = StorageJson.list_movies (.doc [("A", ⟨.vint 2000, .vfloat 5, .vstr "p"⟩)])
    ∧ (StorageCsv.update_movie
          (StorageCsv.save_data [("A", ⟨.vint 2000, .vfloat 5, .vstr "p"⟩)]) "C" 7).bind
        StorageCsv.load_data
      = StorageCsv.list_movies
          (StorageCsv.save_data [("A", ⟨.vint 2000, .vfloat 5, .vstr "p"⟩)]) :=
  c7_update_absent_noop [("A", ⟨.vint 2000, .vfloat 5, .vstr "p"⟩)] "C" 7
    (by decide) (by decide) (by decide)

/-- C8: for both backends, deleting a title twice produces the same resulting
collection as deleting it once, and deleting an absent title leaves the
collection unchanged (a no-op, not an error — the CSV side returns `.ok`). -/
theorem c8_delete_idempotent (m : Movies) (t u : String)
    (hnd : nodupKeys m) (hwf : wellFormed m = true)
    (habs : dictContains m u = false) :
    StorageJson.list_movies
        (StorageJson.delete_movie (StorageJson.delete_movie (.doc m) t) t)
      = StorageJson.list_movies (StorageJson.delete_movie (.doc m) t)
    ∧ ((StorageCsv.delete_movie (StorageCsv.save_data m) t).bind
          (fun f => StorageCsv.delete_movie f t)).bind StorageCsv.load_data
        = (StorageCsv.delete_movie (StorageCsv.save_data m) t).bind StorageCsv.load_data
    ∧ StorageJson.list_movies (StorageJson.delete_movie (.doc m) u) = m
    ∧ (StorageCsv.delete_movie (StorageCsv.save_data m) u).bind StorageCsv.load_data
        = .ok m := by
  have hndd : nodupKeys (dictDelete m t) := nodupKeys_filter m _ hnd
  have hwfd : wellFormed (dictDelete m t) = true := wellFormed_filter m _ hwf
  have hdel : StorageCsv.delete_movie (StorageCsv.save_data m) t
      = .ok (StorageCsv.save_data (dictDelete m t)) := by
    unfold StorageCsv.delete_movie
    rw [csv_load_save m hnd hwf]
  have hdel2 : StorageCsv.delete_movie (StorageCsv.save_data (dictDelete m t)) t
      = .ok (StorageCsv.save_data (dictDelete m t)) := by
    unfold StorageCsv.delete_movie
    rw [csv_load_save _ hndd hwfd]
    show Except.ok (StorageCsv.save_data (dictDelete (dictDelete m t) t))
      = Except.ok (StorageCsv.save_data (dictDelete m t))
    rw [dictDelete_dictDelete]
  refine ⟨?_, ?_, ?_, ?_⟩
  · simp [StorageJson.list_movies, StorageJson.delete_movie, StorageJson.load_data,
      StorageJson.save_data, dictDelete_dictDelete]
  · rw [hdel]
    show (StorageCsv.delete_movie (StorageCsv.save_data (dictDelete m t)) t).bind
        StorageCsv.load_data
      = StorageCsv.load_data (StorageCsv.save_data (dictDelete m t))
    rw [hdel2]
    rfl
  · simp [StorageJson.list_movies, StorageJson.delete_movie, StorageJson.load_data,
      StorageJson.save_data, dictDelete_not_contains m u habs]
  · unfold StorageCsv.delete_movie
    rw [csv_load_save m hnd hwf]
    show StorageCsv.load_data (StorageCsv.save_data (dictDelete m u)) = .ok m
    rw [dictDelete_not_contains m u habs]
    exact csv_load_save m hnd hwf

theorem c8_witness :
    StorageJson.list_movies
        (StorageJson.delete_movie
          (StorageJson.delete_movie (.doc [("A", ⟨.vint 2000, .vfloat 5, .vstr "p"⟩)]) "A") "A")
      = StorageJson.list_movies
          (StorageJson.delete_movie (.doc [("A", ⟨.vint 2000, .vfloat 5, .vstr "p"⟩)]) "A")
    ∧ ((StorageCsv.delete_movie
          (StorageCsv.save_data [("A", ⟨.vint 2000, .vfloat 5, .vstr "p"⟩)]) "A").bind
            (fun f => StorageCsv.delete_movie f "A")).bind StorageCsv.load_data
        = (StorageCsv.delete_movie
            (StorageCsv.save_data [("A", ⟨.vint 2000, .vfloat 5, .vstr "p"⟩)]) "A").bind
              StorageCsv.load_data
    ∧ StorageJson.list_movies
        (StorageJson.delete_movie (.doc [("A", ⟨.vint 2000, .vfloat 5, .vstr "p"⟩)]) "C")
      = [("A", ⟨.vint 2000, .vfloat 5, .vstr "p"⟩)]
    ∧ (StorageCsv.delete_movie
          (StorageCsv.save_data [("A", ⟨.vint 2000, .vfloat 5, .vstr "p"⟩)]) "C").bind
            StorageCsv.load_data
        = .ok [("A", ⟨.vint 2000, .vfloat 5, .vstr "p"⟩)] :=
  c8_delete_idempotent [("A", ⟨.vint 2000, .vfloat 5, .vstr "p"⟩)] "A" "C"
    (by decide) (by decide) (by decide)

/-- C9: writing a collection and reading it back yields an equal mapping for
both backends: the JSON document round-trips exactly (numeric types
preserved), and a CSV save followed by a load returns the same collection,
with the `None` sentinels passing through empty cells (`cellStr .vnone` is
the empty field). -/
theorem c9_roundtrip (m : Movies) (hnd : nodupKeys m) (hwf : wellFormed m = true) :
    StorageJson.list_movies (StorageJson.save_data m) = m
    ∧ StorageCsv.load_data (StorageCsv.save_data m) = .ok m
    ∧ cellStr .vnone = "" :=
  ⟨rfl, csv_load_save m hnd hwf, rfl⟩

theorem c9_witness :
    StorageJson.list_movies (StorageJson.save_data
        [("A", ⟨.vint 1995, .vfloat 5, .vstr "u"⟩), ("B", ⟨.vnone, .vnone, .vstr ""⟩)])
      = [("A", ⟨.vint 1995, .vfloat 5, .vstr "u"⟩), ("B", ⟨.vnone, .vnone, .vstr ""⟩)]
    ∧ StorageCsv.load_data (StorageCsv.save_data
        [("A", ⟨.vint 1995, .vfloat 5, .vstr "u"⟩), ("B", ⟨.vnone, .vnone, .vstr ""⟩)])
      = .ok [("A", ⟨.vint 1995, .vfloat 5, .vstr "u"⟩), ("B", ⟨.vnone, .vnone, .vstr ""⟩)]
    ∧ cellStr .vnone = "" :=
  c9_roundtrip
    [("A", ⟨.vint 1995, .vfloat 5, .vstr "u"⟩), ("B", ⟨.vnone, .vnone, .vstr ""⟩)]
    (by decide) (by decide)

/-- C10: `delete_movie` and `update_movie` call the save step even when
nothing was removed or updated; on an absent backing file each creates the
serialized empty collection — the empty document for the JSON backend, the
header-only file for the CSV backend. -/
theorem c10_save_unconditional (t : String) (r : ℚ) :
    StorageJson.delete_movie .absent t = .doc []
    ∧ StorageJson.update_movie .absent t r = .doc []
    ∧ StorageCsv.delete_movie .absent t = .ok (.rows [["title", "year", "rating", "poster"]])
    ∧ StorageCsv.update_movie .absent t r
        = .ok (.rows [["title", "year", "rating", "poster"]]) :=
  ⟨rfl, rfl, rfl, rfl⟩
